import Mathlib

/- Verification development for the SNI-aware RDP TCP forwarder (main.go).
   Bytes are modelled as natural numbers and byte buffers as lists of
   naturals; the Go functions are translated into total executable Lean
   definitions that follow the source line by line. -/

/-- Result of the TLS ClientHello SNI extraction (Go function extractSNI).
The constructor errRes models a non-nil Go error, absent models the pair
of an empty string and a nil error, and found carries the extracted host
name bytes.  The constructor oob marks an index outside the buffer or an
exhausted iteration budget; the Go original would panic on such a read, so
the development proves oob is never produced. -/
inductive SNIResult where
  | errRes (msg : String) : SNIResult
  | absent : SNIResult
  | found (name : List Nat) : SNIResult
  | oob : SNIResult
deriving DecidableEq

/-- Checked single-byte read, Go data[i]. -/
def readByte (data : List Nat) (i : Nat) : Option Nat := data[i]?

/-- Checked big-endian 16-bit read, Go binary.BigEndian.Uint16(data[i:]). -/
def readU16 (data : List Nat) (i : Nat) : Option Nat :=
  match data[i]?, data[i + 1]? with
  | some a, some b => some (a * 256 + b)
  | _, _ => none

/-- The extension-walking loop of extractSNI (main.go lines 272-305).
The cursor pos advances by at least one per iteration, so the explicit
fuel argument, instantiated with one more than the extensions length,
never runs out; sniExtLoop_never_oob makes that a theorem because the
fuel-exhaustion branch returns oob. -/
def sniExtLoop (data : List Nat) (ee : Nat) : Nat → Nat → SNIResult
  | 0, _ => SNIResult.oob
  | fuel + 1, pos =>
    if pos + 4 ≤ ee ∧ pos + 4 ≤ data.length then
      match readU16 data pos, readU16 data (pos + 2) with
      | some extType, some extLen =>
        if data.length < pos + 4 + extLen then SNIResult.absent
        else if extType = 0 then
          if extLen < 2 then SNIResult.absent
          else if extLen - 2 < 3 then SNIResult.absent
          else
            match readByte data (pos + 6) with
            | some b =>
              if b = 0 then
                match readU16 data (pos + 7) with
                | some nameLen =>
                  if pos + 9 + nameLen ≤ data.length then
                    SNIResult.found ((data.drop (pos + 9)).take nameLen)
                  else sniExtLoop data ee fuel (pos + 9 + (extLen - 2))
                | none => SNIResult.oob
              else sniExtLoop data ee fuel (pos + 6 + (extLen - 2))
            | none => SNIResult.oob
        else sniExtLoop data ee fuel (pos + 4 + extLen)
      | _, _ => SNIResult.oob
    else SNIResult.absent

/-- Go extractSNI (main.go lines 226-308): bounded walk over the TLS
record, handshake header, session id, cipher suites, compression methods
and extensions of a ClientHello, returning the server name of the first
SNI extension whose host name fits inside the buffer. -/
def extractSNI (data : List Nat) : SNIResult :=
  if data.length < 43 then SNIResult.errRes "data too short"
  else
    match readByte data 0 with
    | none => SNIResult.oob
    | some b0 =>
      if b0 ≠ 0x16 then SNIResult.errRes "not a TLS handshake"
      else
        match readByte data 5 with
        | none => SNIResult.oob
        | some b5 =>
          if b5 ≠ 1 then SNIResult.errRes "not a ClientHello"
          else if data.length ≤ 43 then SNIResult.absent
          else
            match readByte data 43 with
            | none => SNIResult.oob
            | some sLen =>
              if data.length < 44 + sLen + 2 then SNIResult.absent
              else
                match readU16 data (44 + sLen) with
                | none => SNIResult.oob
                | some cLen =>
                  if data.length ≤ 44 + sLen + 2 + cLen then SNIResult.absent
                  else
                    match readByte data (44 + sLen + 2 + cLen) with
                    | none => SNIResult.oob
                    | some mLen =>
                      if data.length < 44 + sLen + 2 + cLen + 1 + mLen + 2 then
                        SNIResult.absent
                      else
                        match readU16 data (44 + sLen + 2 + cLen + 1 + mLen) with
                        | none => SNIResult.oob
                        | some extsLen =>
                          sniExtLoop data
                            (44 + sLen + 2 + cLen + 1 + mLen + 2 + extsLen)
                            (extsLen + 1)
                            (44 + sLen + 2 + cLen + 1 + mLen + 2)

example :
    extractSNI
      [0x16, 3, 1, 0, 0x38, 1, 0, 0, 0x34, 3, 3,
       0, 0, 0, 0, 0, 0, 0, 0, 0, 0, 0, 0, 0, 0, 0, 0,
       0, 0, 0, 0, 0, 0, 0, 0, 0, 0, 0, 0, 0, 0, 0, 0,
       0, 0, 2, 0, 0x2f, 1, 0, 0, 10, 0, 0, 0, 6, 0, 4, 0, 0, 1, 0x62]
      = SNIResult.found [0x62] := rfl

example : extractSNI [0x16] = SNIResult.errRes "data too short" := rfl

lemma readByte_eq_none_iff (data : List Nat) (i : Nat) :
    readByte data i = none ↔ data.length ≤ i := by
  simp [readByte, List.getElem?_eq_none_iff]

lemma getElem?_some_lt (data : List Nat) (i v : Nat) (h : data[i]? = some v) :
    i < data.length := by
  by_contra hc
  rw [List.getElem?_eq_none (by omega)] at h
  exact Option.noConfusion h

lemma readU16_eq_none_iff (data : List Nat) (i : Nat) :
    readU16 data i = none ↔ data.length ≤ i + 1 := by
  unfold readU16
  rcases h1 : data[i]? with _ | a
  · rw [List.getElem?_eq_none_iff] at h1
    rcases h2 : data[i + 1]? with _ | b <;> simp <;> omega
  · have hlt1 := getElem?_some_lt data i a h1
    rcases h2 : data[i + 1]? with _ | b
    · rw [List.getElem?_eq_none_iff] at h2
      simp
      omega
    · have hlt2 := getElem?_some_lt data (i + 1) b h2
      simp
      omega

lemma sniExtLoop_ne_oob (data : List Nat) :
    ∀ fuel ee pos, ee - pos < fuel → sniExtLoop data ee fuel pos ≠ SNIResult.oob := by
  intro fuel
  induction fuel with
  | zero => intro ee pos h; omega
  | succ n ih =>
    intro ee pos h
    simp only [sniExtLoop]
    split
    case isTrue hcond =>
      obtain ⟨hee, hlen⟩ := hcond
      rcases hA : readU16 data pos with _ | extType
      · rw [readU16_eq_none_iff] at hA; omega
      rcases hB : readU16 data (pos + 2) with _ | extLen
      · rw [readU16_eq_none_iff] at hB; omega
      dsimp only
      split
      case isTrue => simp
      case isFalse hfit =>
        split
        case isFalse => exact ih ee (pos + 4 + extLen) (by omega)
        case isTrue =>
          split
          case isTrue => simp
          case isFalse h2 =>
            split
            case isTrue => simp
            case isFalse h3 =>
              rcases hC : readByte data (pos + 6) with _ | b
              · rw [readByte_eq_none_iff] at hC; omega
              dsimp only
              split
              case isFalse => exact ih ee (pos + 6 + (extLen - 2)) (by omega)
              case isTrue =>
                rcases hD : readU16 data (pos + 7) with _ | nameLen
                · rw [readU16_eq_none_iff] at hD; omega
                dsimp only
                split
                case isTrue => simp
                case isFalse => exact ih ee (pos + 9 + (extLen - 2)) (by omega)
    case isFalse => simp

/-- Claim C5: the TLS ClientHello SNI extraction is total: for every byte
input of any length and content, the embedded extractSNI returns a regular
result (a parse error, absent, or a found name) and never the oob marker,
which stands both for a read the Go code would make outside the buffer and
for an exhausted loop budget.  All early returns after the header checks
are the absent result by definition. -/
theorem extractSNI_never_oob (data : List Nat) : extractSNI data ≠ SNIResult.oob := by
  unfold extractSNI
  split
  case isTrue => simp
  case isFalse hlen =>
    rcases h0 : readByte data 0 with _ | b0
    · rw [readByte_eq_none_iff] at h0; omega
    dsimp only
    split
    case isTrue => simp
    case isFalse =>
      rcases h5 : readByte data 5 with _ | b5
      · rw [readByte_eq_none_iff] at h5; omega
      dsimp only
      split
      case isTrue => simp
      case isFalse =>
        split
        case isTrue => simp
        case isFalse h43 =>
          rcases hS : readByte data 43 with _ | sLen
          · rw [readByte_eq_none_iff] at hS; omega
          dsimp only
          split
          case isTrue => simp
          case isFalse hg1 =>
            rcases hCc : readU16 data (44 + sLen) with _ | cLen
            · rw [readU16_eq_none_iff] at hCc; omega
            dsimp only
            split
            case isTrue => simp
            case isFalse hg2 =>
              rcases hM : readByte data (44 + sLen + 2 + cLen) with _ | mLen
              · rw [readByte_eq_none_iff] at hM; omega
              dsimp only
              split
              case isTrue => simp
              case isFalse hg3 =>
                rcases hE : readU16 data (44 + sLen + 2 + cLen + 1 + mLen) with _ | extsLen
                · rw [readU16_eq_none_iff] at hE; omega
                dsimp only
                exact sniExtLoop_ne_oob data (extsLen + 1)
                  (44 + sLen + 2 + cLen + 1 + mLen + 2 + extsLen)
                  (44 + sLen + 2 + cLen + 1 + mLen + 2) (by omega)

/-- Inner run collection of extractRDPClientInfo (main.go lines 205-215):
starting at offset j, consume at most k UTF-16-LE code units (Go bounds
the inner loop by j < i + 64, that is 32 two-byte units), stopping at the
buffer end minus one, at a 0x00 0x00 unit, or at a non-conforming pair;
printable low bytes are collected. -/
def rdpRun (data : List Nat) : Nat → Nat → List Nat
  | 0, _ => []
  | k + 1, j =>
    match data[j]?, data[j + 1]? with
    | some a, some b =>
      if a = 0 ∧ b = 0 then []
      else if 0x20 ≤ a ∧ a ≤ 0x7E ∧ b = 0 then a :: rdpRun data k (j + 2)
      else []
    | _, _ => []

/-- Outer scan of extractRDPClientInfo (main.go lines 200-220): try each
start offset i from 10 below bound, where bound is min(len-20, 600); the
candidate at i qualifies when its first byte pair looks like a printable
UTF-16-LE unit and its run yields more than three characters.  Every read
here is within bounds because bound + 20 is at most the buffer length, so
the Go direct indexing is modelled with getD.  The fuel argument is one
more than bound, which exceeds the number of remaining offsets. -/
def rdpScanFrom (data : List Nat) (bound : Nat) : Nat → Nat → Option (List Nat)
  | 0, _ => none
  | fuel + 1, i =>
    if i < bound then
      if 0x20 ≤ data.getD i 0 ∧ data.getD i 0 ≤ 0x7E ∧ data.getD (i + 1) 0 = 0 then
        if 3 < (rdpRun data 32 i).length then some (rdpRun data 32 i)
        else rdpScanFrom data bound fuel (i + 1)
      else rdpScanFrom data bound fuel (i + 1)
    else none

/-- Go extractRDPClientInfo (main.go lines 179-223): heuristic extraction
of the RDP client computer name from an MCS Connect Initial PDU. -/
def extractRDPClientInfo (data : List Nat) : Except String (List Nat) :=
  if data.length < 20 then Except.error "data too short"
  else if ¬(data.getD 0 0 = 0x03 ∧ data.getD 1 0 = 0x00) then
    Except.error "not a TPKT packet"
  else
    match rdpScanFrom data (min (data.length - 20) 600) (min (data.length - 20) 600 + 1) 10 with
    | some name => Except.ok name
    | none => Except.error "client name not found"

/-- Byte pairs at offsets i, i+2, ..., i+62 that lie fully inside the
buffer: the window of at most 32 UTF-16-LE code units the heuristic may
inspect for the candidate at offset i.  Written from the words of the
specification for comparison with the source translation. -/
def specPairs (data : List Nat) (i : Nat) (k : Nat) : List (Nat × Nat) :=
  (List.range k).filterMap (fun t =>
    match data[i + 2 * t]?, data[i + 2 * t + 1]? with
    | some a, some b => some (a, b)
    | _, _ => none)

/-- A printable UTF-16-LE code unit: even-position byte in 0x20..0x7E and
odd-position byte 0x00. -/
def isNameUnit (p : Nat × Nat) : Bool := decide (0x20 ≤ p.1 ∧ p.1 ≤ 0x7E ∧ p.2 = 0)

/-- The run the specification describes for a candidate offset: the
longest conforming pair run from the window, projected to its low bytes.
A 0x00 0x00 unit and any non-conforming pair both fail isNameUnit, so the
run terminates there. -/
def specRunAt (data : List Nat) (i : Nat) : List Nat :=
  ((specPairs data i 32).takeWhile isNameUnit).map Prod.fst

/-- The RDP client-name heuristic as the specification words it: on a
TPKT packet of at least 20 bytes, scan start offsets 10 up to
min(len-20, 600) and return the first candidate whose run yields more
than three characters; report absence otherwise. -/
def rdpNameSpec (data : List Nat) : Option (List Nat) :=
  if 20 ≤ data.length ∧ data.getD 0 0 = 0x03 ∧ data.getD 1 0 = 0x00 then
    ((List.range' 10 (min (data.length - 20) 600 - 10)).find?
        (fun i => 3 < (specRunAt data i).length)).map (fun i => specRunAt data i)
  else none

def rdpWorkPkt : List Nat :=
  [3, 0, 0, 0, 0, 0, 0, 0, 0, 0,
   0x57, 0, 0x4F, 0, 0x52, 0, 0x4B, 0, 0, 0,
   0, 0, 0, 0, 0, 0, 0, 0, 0, 0, 0, 0]

example : extractRDPClientInfo rdpWorkPkt = Except.ok [0x57, 0x4F, 0x52, 0x4B] := rfl
example : rdpNameSpec rdpWorkPkt = some [0x57, 0x4F, 0x52, 0x4B] := by decide
example : extractRDPClientInfo [3, 0] = Except.error "data too short" := rfl
example : extractRDPClientInfo (5 :: List.replicate 31 0) = Except.error "not a TPKT packet" := rfl

lemma specPairs_zero (data : List Nat) (j : Nat) : specPairs data j 0 = [] := by
  simp [specPairs]

lemma specPairs_succ (data : List Nat) (j k : Nat) :
    specPairs data j (k + 1) =
      (match data[j]?, data[j + 1]? with
       | some a, some b => (a, b) :: specPairs data (j + 2) k
       | _, _ => specPairs data (j + 2) k) := by
  unfold specPairs
  rw [List.range_succ_eq_map, List.filterMap_cons, List.filterMap_map]
  have harg : ((fun t =>
        match data[j + 2 * t]?, data[j + 2 * t + 1]? with
        | some a, some b => some (a, b)
        | _, _ => none) ∘ Nat.succ)
      = fun t =>
        match data[j + 2 + 2 * t]?, data[j + 2 + 2 * t + 1]? with
        | some a, some b => some (a, b)
        | _, _ => none := by
    funext t
    have e1 : j + 2 * Nat.succ t = j + 2 + 2 * t := by omega
    simp only [Function.comp_apply, e1]
  rw [harg]
  simp only [Nat.mul_zero, Nat.add_zero]
  rcases data[j]? with _ | a <;> rcases data[j + 1]? with _ | b <;> simp

lemma specPairs_nil (data : List Nat) :
    ∀ k j, data.length ≤ j + 1 → specPairs data j k = [] := by
  intro k
  induction k with
  | zero => intro j _; exact specPairs_zero data j
  | succ n ih =>
    intro j h
    rw [specPairs_succ]
    have h2 : specPairs data (j + 2) n = [] := ih (j + 2) (by omega)
    rcases hj : data[j]? with _ | a
    · simp [h2]
    · rcases hj1 : data[j + 1]? with _ | b
      · simp [h2]
      · have := getElem?_some_lt data (j + 1) b hj1
        omega

lemma rdpRun_eq_spec (data : List Nat) :
    ∀ k j, rdpRun data k j = ((specPairs data j k).takeWhile isNameUnit).map Prod.fst := by
  intro k
  induction k with
  | zero => intro j; simp [rdpRun, specPairs_zero]
  | succ n ih =>
    intro j
    rw [specPairs_succ]
    rcases hj : data[j]? with _ | a
    · have hnil : specPairs data (j + 2) n = [] := by
        refine specPairs_nil data n (j + 2) ?_
        rw [List.getElem?_eq_none_iff] at hj
        omega
      simp [rdpRun, hj, hnil]
    · rcases hj1 : data[j + 1]? with _ | b
      · have hnil : specPairs data (j + 2) n = [] := by
          refine specPairs_nil data n (j + 2) ?_
          rw [List.getElem?_eq_none_iff] at hj1
          omega
        simp [rdpRun, hj, hj1, hnil]
      · simp only [rdpRun, hj, hj1]
        by_cases hz : a = 0 ∧ b = 0
        · obtain ⟨ha, hb⟩ := hz
          subst ha
          subst hb
          simp [isNameUnit]
        · by_cases hu : 0x20 ≤ a ∧ a ≤ 0x7E ∧ b = 0
          · obtain ⟨hu1, hu2, hu3⟩ := hu
            subst hu3
            have ha0 : ¬a = 0 := by omega
            have ht : isNameUnit (a, 0) = true := by
              simp [isNameUnit, hu1, hu2]
            simp [ha0, hu1, hu2, ht, ih]
          · have hf : isNameUnit (a, b) = false := by
              simp only [isNameUnit, decide_eq_false_iff_not]
              exact hu
            simp [hz, hu, hf]

lemma specRunAt_nil_of_bad_head (data : List Nat) (i : Nat)
    (hi1 : i + 1 < data.length)
    (hf : isNameUnit (data.getD i 0, data.getD (i + 1) 0) = false) :
    specRunAt data i = [] := by
  have hgi : data[i]? = some (data.getD i 0) := by
    rw [List.getD_eq_getElem?_getD, List.getElem?_eq_getElem (by omega)]
    rfl
  have hgi1 : data[i + 1]? = some (data.getD (i + 1) 0) := by
    rw [List.getD_eq_getElem?_getD, List.getElem?_eq_getElem hi1]
    rfl
  unfold specRunAt
  rw [show (32 : Nat) = 31 + 1 from rfl, specPairs_succ, hgi, hgi1]
  dsimp only
  rw [List.takeWhile_cons, hf]
  simp

lemma rdpScanFrom_eq_spec (data : List Nat) (bound : Nat)
    (hb : ∀ t, t < bound → t + 1 < data.length) :
    ∀ fuel i, bound - i < fuel →
      rdpScanFrom data bound fuel i =
        ((List.range' i (bound - i)).find? (fun t => 3 < (specRunAt data t).length)).map
          (fun t => specRunAt data t) := by
  intro fuel
  induction fuel with
  | zero => intro i h; omega
  | succ n ih =>
    intro i h
    simp only [rdpScanFrom]
    split
    case isFalse hi =>
      have h0 : bound - i = 0 := by omega
      rw [h0]
      rfl
    case isTrue hi =>
      have hi1 : i + 1 < data.length := hb i hi
      have hrun : rdpRun data 32 i = specRunAt data i := by
        rw [rdpRun_eq_spec]
        rfl
      have hrange : bound - i = (bound - (i + 1)) + 1 := by omega
      rw [hrange, List.range'_succ, List.find?_cons]
      split
      case isTrue hpre =>
        split
        case isTrue hlen4 =>
          have hp : decide (3 < (specRunAt data i).length) = true := by
            rw [← hrun]
            simpa using hlen4
          rw [hp]
          simp [hrun]
        case isFalse hlen4 =>
          have hp : decide (3 < (specRunAt data i).length) = false := by
            rw [← hrun]
            simpa using hlen4
          rw [hp]
          exact ih (i + 1) (by omega)
      case isFalse hpre =>
        have hf : isNameUnit (data.getD i 0, data.getD (i + 1) 0) = false := by
          simp only [isNameUnit, decide_eq_false_iff_not]
          exact hpre
        have hnil : specRunAt data i = [] := specRunAt_nil_of_bad_head data i hi1 hf
        have hp : decide (3 < (specRunAt data i).length) = false := by
          rw [hnil]
          rfl
        rw [hp]
        exact ih (i + 1) (by omega)

/-- Claim C9: the RDP client-name heuristic translated from the source
agrees, on every input, with the independent formulation written from the
specification words: scan start offsets 10 up to min(len-20, 600) for a
run of printable UTF-16-LE units (even byte 0x20..0x7E, odd byte 0x00),
terminate a run at a 0x00 0x00 unit or any non-conforming pair, consume
at most 32 code units per candidate, and return the first candidate whose
run yielded more than three characters, reporting absence otherwise. -/
theorem extractRDPClientInfo_eq_spec (data : List Nat) :
    (extractRDPClientInfo data).toOption = rdpNameSpec data := by
  unfold extractRDPClientInfo rdpNameSpec
  by_cases h20 : data.length < 20
  · rw [if_pos h20, if_neg]
    · rfl
    · rintro ⟨hc, -⟩
      omega
  · rw [if_neg h20]
    by_cases hdr : data.getD 0 0 = 0x03 ∧ data.getD 1 0 = 0x00
    · rw [if_neg (by simpa using hdr), if_pos ⟨by omega, hdr⟩]
      have hb : ∀ t, t < min (data.length - 20) 600 → t + 1 < data.length := by
        intro t ht
        have h1 : min (data.length - 20) 600 ≤ data.length - 20 := Nat.min_le_left _ _
        omega
      rw [rdpScanFrom_eq_spec data (min (data.length - 20) 600) hb
            (min (data.length - 20) 600 + 1) 10 (by omega)]
      rcases (List.range' 10 (min (data.length - 20) 600 - 10)).find?
          (fun i => 3 < (specRunAt data i).length) with _ | v
      · rfl
      · rfl
    · rw [if_pos hdr, if_neg]
      · rfl
      · rintro ⟨-, hc⟩
        exact hdr hc

/-- Claim C10: the RDP client-name heuristic fails up front when the
input is shorter than 20 bytes or does not begin with the TPKT header
0x03 0x00, so a client name can only ever be extracted from a packet at
least 20 bytes long whose first two bytes are 0x03 0x00. -/
theorem extractRDPClientInfo_ok_header (data : List Nat) (name : List Nat)
    (h : extractRDPClientInfo data = Except.ok name) :
    20 ≤ data.length ∧ data.getD 0 0 = 0x03 ∧ data.getD 1 0 = 0x00 := by
  unfold extractRDPClientInfo at h
  by_cases h20 : data.length < 20
  · rw [if_pos h20] at h
    exact Except.noConfusion h
  · by_cases hdr : data.getD 0 0 = 0x03 ∧ data.getD 1 0 = 0x00
    · exact ⟨by omega, hdr⟩
    · rw [if_neg h20, if_pos hdr] at h
      exact Except.noConfusion h

theorem extractRDPClientInfo_ok_header_witness :
    extractRDPClientInfo rdpWorkPkt = Except.ok [0x57, 0x4F, 0x52, 0x4B] ∧
      (20 ≤ rdpWorkPkt.length ∧ rdpWorkPkt.getD 0 0 = 0x03 ∧ rdpWorkPkt.getD 1 0 = 0x00) :=
  ⟨rfl, extractRDPClientInfo_ok_header rdpWorkPkt [0x57, 0x4F, 0x52, 0x4B] rfl⟩

/-- Runtime configuration restricted to the fields the classifier reads:
the two whitelists (Go map[string]bool sets, modelled as lists of the keys
inserted with value true). -/
structure Config where
  sniWhitelist : List (List Nat)
  clientWhitelist : List (List Nat)
deriving DecidableEq

/-- Mutable per-connection classifier variables of the client-to-server
goroutine (main.go lines 505-509): packetNum and the three flags. -/
structure ConnState where
  packetNum : Nat
  rdpNegotiated : Bool
  tlsDetected : Bool
  clientIdentified : Bool
deriving DecidableEq

def initialConnState : ConnState := ⟨0, false, false, false⟩

/-- Outcome of one iteration of the classifier loop on one packet:
whether the iteration broke out with the rejection sentinel
(ErrSNINotInWhitelist), the updated variables, and whether extractSNI or
extractRDPClientInfo was invoked during the iteration. -/
structure StepResult where
  rejected : Bool
  st : ConnState
  calledSNI : Bool
  calledRDP : Bool
deriving DecidableEq

/-- One iteration of the client-to-server loop body (main.go lines
520-590), excluding the final write to the target.  The three branches
mirror the Go else-if chain; buf[0] on the first packet of an empty read
is 0 because the buffer starts zeroed, which headD 0 reproduces. -/
def classifyPacket (cfg : Config) (st : ConnState) (p : List Nat) : StepResult :=
  if 0 < p.length ∧ p.headD 0 = 0x16 then
    match extractSNI p with
    | SNIResult.found sni =>
      if sni ≠ [] then
        if cfg.sniWhitelist ≠ [] ∧ sni ∉ cfg.sniWhitelist then
          ⟨true, ⟨st.packetNum + 1, st.rdpNegotiated, true, true⟩, true, false⟩
        else ⟨false, ⟨st.packetNum + 1, st.rdpNegotiated, true, true⟩, true, false⟩
      else ⟨false, ⟨st.packetNum + 1, st.rdpNegotiated, true, st.clientIdentified⟩, true, false⟩
    | _ => ⟨false, ⟨st.packetNum + 1, st.rdpNegotiated, true, st.clientIdentified⟩, true, false⟩
  else if st.packetNum + 1 = 1 ∧ p.headD 0 = 0x03 then
    ⟨false, ⟨st.packetNum + 1, true, st.tlsDetected, st.clientIdentified⟩, false, false⟩
  else if st.rdpNegotiated = true ∧ st.tlsDetected = false then
    if 2 ≤ st.packetNum + 1 ∧ st.packetNum + 1 ≤ 5 then
      match extractRDPClientInfo p with
      | Except.ok name =>
        if name ≠ [] then
          if cfg.clientWhitelist ≠ [] ∧ name ∉ cfg.clientWhitelist then
            ⟨true, ⟨st.packetNum + 1, st.rdpNegotiated, st.tlsDetected, true⟩, false, true⟩
          else ⟨false, ⟨st.packetNum + 1, st.rdpNegotiated, st.tlsDetected, true⟩, false, true⟩
        else
          ⟨false, ⟨st.packetNum + 1, st.rdpNegotiated, st.tlsDetected, st.clientIdentified⟩,
            false, true⟩
      | Except.error _ =>
        ⟨false, ⟨st.packetNum + 1, st.rdpNegotiated, st.tlsDetected, st.clientIdentified⟩,
          false, true⟩
    else if 5 < st.packetNum + 1 ∧ st.clientIdentified = false then
      if cfg.sniWhitelist ≠ [] then
        ⟨true, ⟨st.packetNum + 1, st.rdpNegotiated, st.tlsDetected, st.clientIdentified⟩,
          false, false⟩
      else if cfg.clientWhitelist ≠ [] then
        ⟨true, ⟨st.packetNum + 1, st.rdpNegotiated, st.tlsDetected, st.clientIdentified⟩,
          false, false⟩
      else
        ⟨false, ⟨st.packetNum + 1, st.rdpNegotiated, st.tlsDetected, st.clientIdentified⟩,
          false, false⟩
    else
      ⟨false, ⟨st.packetNum + 1, st.rdpNegotiated, st.tlsDetected, st.clientIdentified⟩,
        false, false⟩
  else
    ⟨false, ⟨st.packetNum + 1, st.rdpNegotiated, st.tlsDetected, st.clientIdentified⟩,
      false, false⟩

/-- Concatenation of a list of byte buffers, in order. -/
def flattenBytes : List (List Nat) → List Nat
  | [] => []
  | x :: xs => x ++ flattenBytes xs

/-- State of a whole run of the classifier loop over a sequence of client
packets: the classifier variables, the concatenation of all bytes written
to the target so far, the numbers of extractSNI and extractRDPClientInfo
invocations, and the packet index at which the loop broke out with the
rejection sentinel, if it did. -/
structure RunAcc where
  st : ConnState
  forwarded : List Nat
  sniCalls : Nat
  rdpCalls : Nat
  rejectedAt : Option Nat
deriving DecidableEq

def initRun : RunAcc := ⟨initialConnState, [], 0, 0, none⟩

/-- The client-to-server loop (main.go lines 511-599) over a list of
packets delivered by successive reads, under the modelling assumptions
that every write to the target succeeds and that the packet list is
followed by a clean end of stream.  A rejected packet is not forwarded
and the loop stops; every packet processed without rejection is forwarded
right after its inspection. -/
def runFrom (cfg : Config) (acc : RunAcc) : List (List Nat) → RunAcc
  | [] => acc
  | p :: ps =>
    let r := classifyPacket cfg acc.st p
    let s := acc.sniCalls + (if r.calledSNI then 1 else 0)
    let d := acc.rdpCalls + (if r.calledRDP then 1 else 0)
    if r.rejected then ⟨r.st, acc.forwarded, s, d, some r.st.packetNum⟩
    else runFrom cfg ⟨r.st, acc.forwarded ++ p, s, d, acc.rejectedAt⟩ ps

def runClassifier (cfg : Config) (ps : List (List Nat)) : RunAcc :=
  runFrom cfg initRun ps

/-- A minimal well-formed ClientHello whose SNI extension carries the one
byte host name 0x62. -/
def helloSNIb : List Nat :=
  [0x16, 3, 1, 0, 0x38, 1, 0, 0, 0x34, 3, 3,
   0, 0, 0, 0, 0, 0, 0, 0, 0, 0, 0, 0, 0, 0, 0, 0,
   0, 0, 0, 0, 0, 0, 0, 0, 0, 0, 0, 0, 0, 0, 0, 0,
   0, 0, 2, 0, 0x2f, 1, 0, 0, 10, 0, 0, 0, 6, 0, 4, 0, 0, 1, 0x62]

/-- The same ClientHello with host name byte 0x61 instead. -/
def helloSNIa : List Nat :=
  [0x16, 3, 1, 0, 0x38, 1, 0, 0, 0x34, 3, 3,
   0, 0, 0, 0, 0, 0, 0, 0, 0, 0, 0, 0, 0, 0, 0, 0,
   0, 0, 0, 0, 0, 0, 0, 0, 0, 0, 0, 0, 0, 0, 0, 0,
   0, 0, 2, 0, 0x2f, 1, 0, 0, 10, 0, 0, 0, 6, 0, 4, 0, 0, 1, 0x61]

def cfgA : Config := ⟨[[0x61]], []⟩

def cfgB : Config := ⟨[[0x62]], []⟩

def cfgX : Config := ⟨[[0x78]], []⟩

def cfgW : Config := ⟨[], [[0x57, 0x4F, 0x52, 0x4B]]⟩

/-- An RDP negotiation packet: TPKT marker 0x03 first. -/
def p03 : List Nat := [0x03, 0, 0, 0]

/-- A malformed TLS record: first byte 0x16 but far too short for SNI
extraction. -/
def p16garbage : List Nat := [0x16, 3, 1]

/-- An opaque first packet: neither 0x16 nor 0x03. -/
def pOpaque : List Nat := [0x05]

/-- A TPKT packet embedding the UTF-16-LE client name EVIL at offset 10. -/
def rdpEvilPkt : List Nat :=
  [3, 0, 0, 0, 0, 0, 0, 0, 0, 0,
   0x45, 0, 0x56, 0, 0x49, 0, 0x4C, 0, 0, 0,
   0, 0, 0, 0, 0, 0, 0, 0, 0, 0, 0, 0]

example : extractSNI helloSNIb = SNIResult.found [0x62] := rfl
example : extractSNI helloSNIa = SNIResult.found [0x61] := rfl
example : extractRDPClientInfo rdpEvilPkt = Except.ok [0x45, 0x56, 0x49, 0x4C] := rfl
example : (runClassifier cfgA [helloSNIb]).rejectedAt = some 1 := rfl
example : (runClassifier cfgB [helloSNIb]).rejectedAt = none := rfl

lemma classifyPacket_packetNum (cfg : Config) (st : ConnState) (p : List Nat) :
    (classifyPacket cfg st p).st.packetNum = st.packetNum + 1 := by
  unfold classifyPacket
  repeat' split
  all_goals rfl

lemma runFrom_reject (cfg : Config) :
    ∀ (ps : List (List Nat)) (acc : RunAcc) (k : Nat),
      acc.rejectedAt = none →
      (runFrom cfg acc ps).rejectedAt = some k →
      acc.st.packetNum < k ∧
        (runFrom cfg acc ps).forwarded =
          acc.forwarded ++ flattenBytes (ps.take (k - acc.st.packetNum - 1)) := by
  intro ps
  induction ps with
  | nil =>
    intro acc k h0 hr
    rw [runFrom, h0] at hr
    exact Option.noConfusion hr
  | cons p ps ih =>
    intro acc k h0 hr
    rw [runFrom] at hr
    rw [runFrom]
    have hpn := classifyPacket_packetNum cfg acc.st p
    by_cases hrej : (classifyPacket cfg acc.st p).rejected
    · rw [if_pos hrej] at hr
      simp only at hr
      have hk : k = acc.st.packetNum + 1 := by
        rw [← hpn]
        exact (Option.some_inj.mp hr).symm
      rw [if_pos hrej]
      constructor
      · omega
      · have h1 : k - acc.st.packetNum - 1 = 0 := by omega
        simp [h1, flattenBytes]
    · rw [if_neg hrej] at hr
      rw [if_neg hrej]
      have := ih ⟨(classifyPacket cfg acc.st p).st, acc.forwarded ++ p,
          acc.sniCalls + (if (classifyPacket cfg acc.st p).calledSNI then 1 else 0),
          acc.rdpCalls + (if (classifyPacket cfg acc.st p).calledRDP then 1 else 0),
          acc.rejectedAt⟩ k (by simpa using h0) hr
      obtain ⟨hlt, hfw⟩ := this
      simp only [hpn] at hlt
      constructor
      · omega
      · have hidx : k - acc.st.packetNum - 1 = (k - acc.st.packetNum - 2) + 1 := by omega
        rw [hidx, List.take_succ_cons]
        have hidx2 : k - (acc.st.packetNum + 1) - 1 = k - acc.st.packetNum - 2 := by omega
        simp only [hpn, hidx2] at hfw
        rw [hfw]
        simp [flattenBytes]

/-- Claim C1: whenever the classifier run over a sequence of client
packets breaks out with the rejection sentinel at packet k, the bytes
written to the target are exactly the concatenation of packets 1..k-1 in
order; no byte of packet k or of any later packet is forwarded, because
the loop breaks before the write and never runs again. -/
theorem classifier_reject_forwards_exactly_prior_packets
    (cfg : Config) (ps : List (List Nat)) (k : Nat)
    (h : (runClassifier cfg ps).rejectedAt = some k) :
    (runClassifier cfg ps).forwarded = flattenBytes (ps.take (k - 1)) := by
  have := runFrom_reject cfg ps initRun k rfl h
  simpa [runClassifier, initRun, initialConnState] using this.2

theorem classifier_reject_forwards_exactly_prior_packets_witness :
    (runClassifier cfgA [helloSNIb]).rejectedAt = some 1 ∧
      (runClassifier cfgA [helloSNIb]).forwarded = flattenBytes ([helloSNIb].take (1 - 1)) :=
  ⟨rfl, classifier_reject_forwards_exactly_prior_packets cfgA [helloSNIb] 1 rfl⟩

/-- Claim C2, counterexample: the code has no terminal Admitted stage.
With sni whitelist containing only 0x62, the first packet is a
ClientHello with SNI 0x62 that identifies the client and passes the
whitelist (the admitting verdict of the claim), yet the second packet,
another ClientHello with SNI 0x61, is parsed again (calledSNI) and the
whitelist decision is re-applied, rejecting the connection. -/
theorem admitted_then_reinspected_cex :
    (classifyPacket cfgB initialConnState helloSNIb).rejected = false ∧
      (classifyPacket cfgB initialConnState helloSNIb).st.clientIdentified = true ∧
      (classifyPacket cfgB (classifyPacket cfgB initialConnState helloSNIb).st
          helloSNIa).calledSNI = true ∧
      (classifyPacket cfgB (classifyPacket cfgB initialConnState helloSNIb).st
          helloSNIa).rejected = true :=
  ⟨rfl, rfl, rfl, rfl⟩

/-- Claim C2, amended: after an admitting verdict the classifier keeps
inspecting; a later packet escapes inspection only when its first byte is
not 0x16 and the packet index is beyond the heuristic window.  For such a
packet on an identified connection, the iteration performs no SNI
extraction, no client-name extraction and no whitelist decision, and only
increments the packet counter. -/
theorem admitted_passthrough_after_window (cfg : Config) (st : ConnState) (p : List Nat)
    (h1 : st.clientIdentified = true) (h2 : 5 ≤ st.packetNum) (h3 : p.headD 0 ≠ 0x16) :
    classifyPacket cfg st p =
      ⟨false, ⟨st.packetNum + 1, st.rdpNegotiated, st.tlsDetected, st.clientIdentified⟩,
        false, false⟩ := by
  unfold classifyPacket
  rw [if_neg (by rintro ⟨-, hcx⟩; exact h3 hcx)]
  rw [if_neg (by rintro ⟨hcx, -⟩; omega)]
  by_cases hb : st.rdpNegotiated = true ∧ st.tlsDetected = false
  · rw [if_pos hb]
    rw [if_neg (by rintro ⟨-, hcx⟩; omega)]
    rw [if_neg (by rintro ⟨-, hcx⟩; rw [h1] at hcx; exact Bool.noConfusion hcx)]
  · rw [if_neg hb]

theorem admitted_passthrough_after_window_witness :
    classifyPacket cfgB ⟨5, true, false, true⟩ p03 =
      ⟨false, ⟨6, true, false, true⟩, false, false⟩ :=
  admitted_passthrough_after_window cfgB ⟨5, true, false, true⟩ p03 rfl (by decide) (by decide)

lemma no_whitelist_never_rejects (cfg : Config)
    (hs : cfg.sniWhitelist = []) (hc : cfg.clientWhitelist = [])
    (st : ConnState) (p : List Nat) :
    (classifyPacket cfg st p).rejected = false := by
  unfold classifyPacket
  repeat' split
  all_goals first
    | rfl
    | (exfalso; simp_all)

/-- Claim C3, counterexample: the packet-count cutoff in the code fires
only while no TLS record has been seen, not merely while no client has
been identified.  With sni whitelist configured and six packets of which
the second is a short 0x16 record that yields no SNI, the connection stays
unidentified past packet 5 while the specification state machine keeps it
in AwaitingTLS, yet the run never rejects and forwards everything. -/
theorem cutoff_disabled_after_tls_detect_cex :
    (runClassifier cfgX [p03, p16garbage, p03, p03, p03, p03]).rejectedAt = none ∧
      (runClassifier cfgX [p03, p16garbage, p03, p03, p03, p03]).st.clientIdentified = false ∧
      (runClassifier cfgX [p03, p16garbage, p03, p03, p03, p03]).st.tlsDetected = true ∧
      (runClassifier cfgX [p03, p16garbage, p03, p03, p03, p03]).st.packetNum = 6 ∧
      cfgX.sniWhitelist ≠ [] ∧
      (runClassifier cfgX [p03, p16garbage, p03, p03, p03, p03]).forwarded =
        flattenBytes [p03, p16garbage, p03, p03, p03, p03] :=
  ⟨rfl, rfl, rfl, rfl, by decide, rfl⟩

/-- Claim C3, amended: for a connection that negotiated RDP, has seen no
packet beginning 0x16, and is unidentified, a packet of index above five
not beginning 0x16 is rejected exactly when one of the whitelists is
non-empty; when both whitelists are empty no packet of any connection is
ever rejected, so the connection is effectively admitted. -/
theorem cutoff_verdict_when_no_tls_detected (cfg : Config) (st : ConnState) (p : List Nat)
    (h1 : st.rdpNegotiated = true) (h2 : st.tlsDetected = false)
    (h3 : st.clientIdentified = false) (h4 : 5 ≤ st.packetNum)
    (h5 : p.headD 0 ≠ 0x16) :
    ((classifyPacket cfg st p).rejected = true ↔
        (cfg.sniWhitelist ≠ [] ∨ cfg.clientWhitelist ≠ [])) ∧
      (cfg.sniWhitelist = [] → cfg.clientWhitelist = [] →
        ∀ st2 p2, (classifyPacket cfg st2 p2).rejected = false) := by
  constructor
  · unfold classifyPacket
    rw [if_neg (by rintro ⟨-, hcx⟩; exact h5 hcx)]
    rw [if_neg (by rintro ⟨hcx, -⟩; omega)]
    rw [if_pos ⟨h1, h2⟩]
    rw [if_neg (by rintro ⟨-, hcx⟩; omega)]
    rw [if_pos ⟨by omega, h3⟩]
    by_cases hsw : cfg.sniWhitelist ≠ []
    · rw [if_pos hsw]
      simp [hsw]
    · rw [if_neg hsw]
      by_cases hcw : cfg.clientWhitelist ≠ []
      · rw [if_pos hcw]
        simp [hcw]
      · rw [if_neg hcw]
        push_neg at hsw hcw
        simp [hsw, hcw]
  · intro hs hc st2 p2
    exact no_whitelist_never_rejects cfg hs hc st2 p2

theorem cutoff_verdict_when_no_tls_detected_witness :
    ((classifyPacket cfgX ⟨5, true, false, false⟩ p03).rejected = true ↔
        (cfgX.sniWhitelist ≠ [] ∨ cfgX.clientWhitelist ≠ [])) ∧
      (cfgX.sniWhitelist = [] → cfgX.clientWhitelist = [] →
        ∀ st2 p2, (classifyPacket cfgX st2 p2).rejected = false) :=
  cutoff_verdict_when_no_tls_detected cfgX ⟨5, true, false, false⟩ p03 rfl rfl rfl
    (by decide) (by decide)

/-- Claim C4, counterexample: with a non-empty client whitelist (only
WORK) and a first packet beginning 0x05, the code never invokes the RDP
client-name heuristic on later packets: the second packet carries the
extractable client name EVIL, which is not in the whitelist and under the
claim would still be identified and rejected, yet the run performs zero
heuristic invocations, rejects nothing and forwards every byte. -/
theorem opaque_first_packet_no_heuristic_cex :
    (runClassifier cfgW [pOpaque, rdpEvilPkt]).rejectedAt = none ∧
      (runClassifier cfgW [pOpaque, rdpEvilPkt]).rdpCalls = 0 ∧
      (runClassifier cfgW [pOpaque, rdpEvilPkt]).sniCalls = 0 ∧
      (runClassifier cfgW [pOpaque, rdpEvilPkt]).forwarded = pOpaque ++ rdpEvilPkt ∧
      extractRDPClientInfo rdpEvilPkt = Except.ok [0x45, 0x56, 0x49, 0x4C] ∧
      [0x45, 0x56, 0x49, 0x4C] ∉ cfgW.clientWhitelist ∧
      cfgW.clientWhitelist ≠ [] :=
  ⟨rfl, rfl, rfl, rfl, rfl, by decide, by decide⟩

/-- Claim C4, amended: a first packet beginning with a byte that is
neither 0x16 nor 0x03 leaves every flag false regardless of the
whitelists; because the rdp-negotiated flag can only be set on packet 1,
the heuristic branch never runs afterwards, so each later packet not
beginning 0x16 is forwarded without any inspection or rejection, and only
later packets beginning 0x16 are ever parsed. -/
theorem opaque_first_packet_behavior (cfg : Config) (p1 : List Nat)
    (h1 : p1.headD 0 ≠ 0x16) (h2 : p1.headD 0 ≠ 0x03) :
    classifyPacket cfg initialConnState p1 =
      ⟨false, ⟨1, false, false, false⟩, false, false⟩ ∧
      (∀ st p, st.rdpNegotiated = false → 1 ≤ st.packetNum → p.headD 0 ≠ 0x16 →
        classifyPacket cfg st p =
          ⟨false, ⟨st.packetNum + 1, false, st.tlsDetected, st.clientIdentified⟩,
            false, false⟩) := by
  constructor
  · unfold classifyPacket
    rw [if_neg (by rintro ⟨-, hcx⟩; exact h1 hcx)]
    rw [if_neg (by rintro ⟨-, hcx⟩; exact h2 hcx)]
    rw [if_neg (by rintro ⟨hcx, -⟩; exact Bool.noConfusion hcx)]
    rfl
  · intro st p hrdp hpn hhd
    unfold classifyPacket
    rw [if_neg (by rintro ⟨-, hcx⟩; exact hhd hcx)]
    rw [if_neg (by rintro ⟨hcx, -⟩; omega)]
    rw [if_neg (by rintro ⟨hcx, -⟩; rw [hrdp] at hcx; exact Bool.noConfusion hcx)]
    rw [hrdp]

theorem opaque_first_packet_behavior_witness :
    classifyPacket cfgW initialConnState pOpaque =
      ⟨false, ⟨1, false, false, false⟩, false, false⟩ ∧
      (∀ st p, st.rdpNegotiated = false → 1 ≤ st.packetNum → p.headD 0 ≠ 0x16 →
        classifyPacket cfgW st p =
          ⟨false, ⟨st.packetNum + 1, false, st.tlsDetected, st.clientIdentified⟩,
            false, false⟩) :=
  opaque_first_packet_behavior cfgW pOpaque (by decide) (by decide)

/-- The two copy directions of the splice engine. -/
inductive Direction where
  | clientToServer : Direction
  | serverToClient : Direction
deriving DecidableEq

/-- Terminal outcome of one copy goroutine, the value it sends on its done
channel: clean is a nil result (end of stream), sentinel is the rejection
error ErrSNINotInWhitelist, failure is any other wrapped read or write
error. -/
inductive CopyOutcome where
  | clean : CopyOutcome
  | sentinel : CopyOutcome
  | failure : CopyOutcome
deriving DecidableEq

/-- Observable events of the per-connection handler (handleConnection,
main.go lines 481-659), in program order: dialing the target, the ERROR
log for a failed dial, starting a copy goroutine, receiving a done-channel
outcome, closing a socket, and the teardown ERROR log. -/
inductive Event where
  | dialTarget : Event
  | dialFailLog : Event
  | spawn (d : Direction) : Event
  | recvOutcome (d : Direction) : Event
  | closeClient : Event
  | closeTarget : Event
  | errorLog : Event
deriving DecidableEq

def otherDir : Direction → Direction
  | Direction.clientToServer => Direction.serverToClient
  | Direction.serverToClient => Direction.clientToServer

/-- The teardown logging step (main.go lines 653-656): only the first
outcome is examined; nil results and the rejection sentinel produce no
ERROR record. -/
def teardownLog : CopyOutcome → List Event
  | CopyOutcome.failure => [Event.errorLog]
  | _ => []

/-- Event trace of handleConnection as a function of the dial result, of
which direction finishes first, and of the two outcomes in finishing
order.  On a failed dial the handler logs, closes the client socket and
returns before starting any copy goroutine.  Otherwise it spawns both
copies, waits for the first outcome, runs the one-shot close of both
sockets (the single closeOnce.Do call site), drains the second outcome
and finally logs at most the first error. -/
def handleConnTrace (dialOk : Bool) (firstDir : Direction)
    (first second : CopyOutcome) : List Event :=
  if dialOk then
    [Event.dialTarget, Event.spawn Direction.clientToServer,
     Event.spawn Direction.serverToClient, Event.recvOutcome firstDir,
     Event.closeClient, Event.closeTarget, Event.recvOutcome (otherDir firstDir)]
      ++ teardownLog first
  else [Event.dialTarget, Event.dialFailLog, Event.closeClient]

/-- Claim C6: for every connection that entered the splice phase (the
dial succeeded), each socket is closed exactly once, the closes happen
right after the first outcome is received, and the second outcome is
drained after the closes and before the handler returns; the second
outcome never alters the trace. -/
theorem splice_closes_each_socket_exactly_once
    (dir : Direction) (first second : CopyOutcome) :
    (handleConnTrace true dir first second).count Event.closeClient = 1 ∧
      (handleConnTrace true dir first second).count Event.closeTarget = 1 ∧
      handleConnTrace true dir first second =
        [Event.dialTarget, Event.spawn Direction.clientToServer,
         Event.spawn Direction.serverToClient, Event.recvOutcome dir,
         Event.closeClient, Event.closeTarget, Event.recvOutcome (otherDir dir)]
          ++ teardownLog first := by
  refine ⟨?_, ?_, rfl⟩ <;> cases dir <;> cases first <;> rfl

/-- Claim C7: during teardown at most one ERROR record is emitted, and it
reports the first outcome only: a sentinel first outcome (already logged
at WARN by the classifier) is suppressed, a clean end of stream logs
nothing, and the second outcome is never consulted. -/
theorem splice_logs_at_most_one_error
    (dir : Direction) (first second s2 : CopyOutcome) :
    (handleConnTrace true dir first second).count Event.errorLog ≤ 1 ∧
      (handleConnTrace true dir CopyOutcome.sentinel second).count Event.errorLog = 0 ∧
      (handleConnTrace true dir CopyOutcome.clean second).count Event.errorLog = 0 ∧
      handleConnTrace true dir first second = handleConnTrace true dir first s2 := by
  refine ⟨?_, ?_, ?_, rfl⟩ <;> cases dir <;> cases first <;> cases second <;> decide

/-- Claim C8: the target is dialed before anything else the handler does,
in particular before either copy goroutine (the only readers and writers
of client bytes) exists; when the dial fails the handler logs an ERROR,
closes the client socket and returns without spawning either copy, so no
byte is forwarded in either direction. -/
theorem dial_before_forwarding_and_fail_fast
    (dir : Direction) (first second : CopyOutcome) :
    handleConnTrace false dir first second =
        [Event.dialTarget, Event.dialFailLog, Event.closeClient] ∧
      (∀ d, (handleConnTrace false dir first second).count (Event.spawn d) = 0) ∧
      (handleConnTrace true dir first second).head? = some Event.dialTarget := by
  refine ⟨rfl, ?_, ?_⟩
  · intro d
    cases d <;> rfl
  · cases dir <;> cases first <;> rfl
